import Mathlib

/-!
Verification of the reminder/alarm scheduling core of the Reminder-App
repository (files Reminder_App.py and Reminder_App_MultiScreen_Support.py;
the two variants duplicate the core verbatim, so one embedding covers both).

The embedding follows the Python source function by function:
  - get_24hour_time        (Reminder_App.py lines 974-981)
  - add_reminder_gui       (lines 983-1012)
  - the edit dialog save   (lines 923-937)
  - delete_reminder        (lines 1036-1051)
  - check_reminders        (lines 1053-1073)
  - load_data / save_data  (lines 1075-1089)
  - snooze_item            (lines 676-691)
  - monitor_loop           (lines 1091-1099)
Ambient inputs of the Python code (wall clock, GUI field contents, the
alert dialog) are passed as explicit parameters; the alert dispatcher
show_fullscreen_alert is an external collaborator and is modelled by the
record of arguments the poller hands it (and, where failure semantics
matter, by an oracle saying on which items it raises).
-/

/-- A reminder, mirroring the dict literal built in add_reminder_gui:
keys id, title, description, date, time, priority, active, and the
optional voice_note key (absent ↔ none). -/
structure Reminder where
  id : Nat
  title : String
  description : String
  date : String
  time : String
  priority : String
  active : Bool
  voice_note : Option String
deriving DecidableEq, Repr

/-- The argument tuple the poller passes to show_fullscreen_alert:
(f"REMINDER: {title}", description, id, voice_note). -/
structure Dispatch where
  alert_title : String
  message : String
  id : Nat
  voice : Option String
deriving DecidableEq, Repr

/-- Zero-padded two-digit rendering, as Python f"{n:02d}" for n < 100. -/
def pad2 (n : Nat) : String :=
  String.mk [Char.ofNat (48 + n / 10 % 10), Char.ofNat (48 + n % 10)]

/-- Zero-padded four-digit rendering, as Python strftime "%Y" for years < 10000. -/
def pad4 (n : Nat) : String :=
  String.mk [Char.ofNat (48 + n / 1000 % 10), Char.ofNat (48 + n / 100 % 10),
             Char.ofNat (48 + n / 10 % 10), Char.ofNat (48 + n % 10)]

/-- The hour arithmetic of get_24hour_time: AM 12 → 0, PM h≠12 → h+12,
otherwise unchanged. -/
def hour24 (hour : Nat) (ampm : String) : Nat :=
  if ampm = "AM" ∧ hour = 12 then 0
  else if ampm = "PM" ∧ hour ≠ 12 then hour + 12
  else hour

/-- get_24hour_time(hour, minute, ampm) = f"{hour:02d}:{minute:02d}" after
the AM/PM adjustment (Reminder_App.py lines 974-981). -/
def get_24hour_time (hour minute : Nat) (ampm : String) : String :=
  pad2 (hour24 hour ampm) ++ ":" ++ pad2 minute

/-- The due test of check_reminders:
reminder['active'] and reminder['date'] == current_date and reminder['time'] == current_time. -/
def isDue (r : Reminder) (current_date current_time : String) : Bool :=
  r.active && r.date == current_date && r.time == current_time

/-- The dispatch record check_reminders hands to show_fullscreen_alert. -/
def mkDispatch (r : Reminder) : Dispatch :=
  ⟨"REMINDER: " ++ r.title, r.description, r.id, r.voice_note⟩

/-- One poll tick of check_reminders (Reminder_App.py lines 1053-1073) at
wall-clock minute (current_date, current_time): walks the reminder list in
order; each due entry is dispatched and then has active set to False.
Returns the updated list and the dispatches in loop order. -/
def checkReminders (d t : String) : List Reminder → List Reminder × List Dispatch
  | [] => ([], [])
  | r :: rs =>
    let rest := checkReminders d t rs
    if isDue r d t then ({ r with active := false } :: rest.1, mkDispatch r :: rest.2)
    else (r :: rest.1, rest.2)

/-- Per-entry effect of one tick: a due entry is deactivated, any other
entry is untouched. -/
def tick1 (d t : String) (r : Reminder) : Reminder :=
  if isDue r d t then { r with active := false } else r

/-- Per-entry dispatch of one tick. -/
def disp1 (d t : String) (r : Reminder) : Option Dispatch :=
  if isDue r d t then some (mkDispatch r) else none

theorem checkReminders_eq (d t : String) (s : List Reminder) :
    checkReminders d t s = (s.map (tick1 d t), s.filterMap (disp1 d t)) := by
  induction s with
  | nil => rfl
  | cons r rs ih =>
    simp only [checkReminders, ih, tick1, disp1, List.map_cons, List.filterMap_cons]
    by_cases h : isDue r d t = true
    · simp [h]
    · simp [h]

theorem ids_checkReminders (d t : String) (s : List Reminder) :
    (checkReminders d t s).1.map Reminder.id = s.map Reminder.id := by
  rw [checkReminders_eq]
  simp only [List.map_map]
  apply List.map_congr_left
  intro r _
  simp only [Function.comp, tick1]
  by_cases h : isDue r d t = true <;> simp [h]

theorem disp_mem_ids (d t : String) (s : List Reminder) (x : Dispatch)
    (hx : x ∈ (checkReminders d t s).2) : x.id ∈ s.map Reminder.id := by
  rw [checkReminders_eq] at hx
  rw [List.mem_filterMap] at hx
  obtain ⟨r, hr, hd⟩ := hx
  simp only [disp1] at hd
  by_cases hdue : isDue r d t = true
  · rw [if_pos hdue] at hd
    have hxr : mkDispatch r = x := Option.some.inj hd
    have : x.id = r.id := by rw [← hxr]; rfl
    rw [this]
    exact List.mem_map_of_mem Reminder.id hr
  · rw [if_neg hdue] at hd
    exact absurd hd (Option.noConfusion)

theorem countP_disp_of_not_mem (d t : String) (s : List Reminder) (i : Nat)
    (h : i ∉ s.map Reminder.id) :
    (checkReminders d t s).2.countP (fun x => x.id == i) = 0 := by
  rw [List.countP_eq_zero]
  intro x hx
  have hmem := disp_mem_ids d t s x hx
  simp only [beq_iff_eq]
  intro heq
  exact h (heq ▸ hmem)

theorem mem_disp_iff (d t : String) (s : List Reminder) (x : Dispatch) :
    x ∈ (checkReminders d t s).2 ↔ ∃ r ∈ s, isDue r d t = true ∧ mkDispatch r = x := by
  rw [checkReminders_eq]
  simp only [List.mem_filterMap, disp1]
  constructor
  · rintro ⟨r, hr, hd⟩
    by_cases hdue : isDue r d t = true
    · rw [if_pos hdue] at hd
      exact ⟨r, hr, hdue, Option.some.inj hd⟩
    · rw [if_neg hdue] at hd
      exact absurd hd Option.noConfusion
  · rintro ⟨r, hr, hdue, hx⟩
    exact ⟨r, hr, by rw [if_pos hdue, hx]⟩

theorem countP_disp_eq_zero (d t : String) (s : List Reminder) (i : Nat)
    (h : ∀ x ∈ s, x.id = i → isDue x d t = false) :
    (checkReminders d t s).2.countP (fun x => x.id == i) = 0 := by
  rw [List.countP_eq_zero]
  intro x hx
  rw [mem_disp_iff] at hx
  obtain ⟨r, hr, hdue, hxr⟩ := hx
  simp only [beq_iff_eq]
  intro heq
  have hid : r.id = i := by rw [← hxr] at heq; exact heq
  rw [h r hr hid] at hdue
  exact Bool.noConfusion hdue

theorem countP_disp_eq_one (d t : String) (s : List Reminder) (r : Reminder)
    (hnd : (s.map Reminder.id).Nodup) (hr : r ∈ s) (hdue : isDue r d t = true) :
    (checkReminders d t s).2.countP (fun x => x.id == r.id) = 1 := by
  induction s with
  | nil => exact absurd hr (List.not_mem_nil r)
  | cons a as ih =>
    have hnd2 : (as.map Reminder.id).Nodup := (List.nodup_cons.mp hnd).2
    have hna : a.id ∉ as.map Reminder.id := (List.nodup_cons.mp hnd).1
    rcases List.mem_cons.mp hr with hra | hras
    · subst hra
      simp only [checkReminders, hdue, if_pos]
      rw [List.countP_cons]
      have h1 : ((mkDispatch r).id == r.id) = true := by
        simp [mkDispatch]
      rw [countP_disp_of_not_mem d t as r.id hna, h1]
      simp
    · have hne : a.id ≠ r.id := by
        intro he
        exact hna (he ▸ List.mem_map_of_mem Reminder.id hras)
      have hrec := ih hnd2 hras
      simp only [checkReminders]
      by_cases ha : isDue a d t = true
      · simp only [ha, if_pos]
        rw [List.countP_cons]
        have h0 : ((mkDispatch a).id == r.id) = false := by
          simp [mkDispatch, hne]
        rw [h0]
        simpa using hrec
      · simp only [ha]
        simpa using hrec

theorem tick_deactivates (d t : String) (s : List Reminder) (r : Reminder)
    (hnd : (s.map Reminder.id).Nodup) (hr : r ∈ s) (hdue : isDue r d t = true) :
    ∀ r' ∈ (checkReminders d t s).1, r'.id = r.id → r'.active = false := by
  intro r' hr' hid
  rw [checkReminders_eq] at hr'
  rw [List.mem_map] at hr'
  obtain ⟨x, hx, hxr⟩ := hr'
  have hxid : x.id = r.id := by
    subst hxr
    simp only [tick1] at hid ⊢
    by_cases hxd : isDue x d t = true
    · rw [if_pos hxd] at hid; exact hid
    · rw [if_neg hxd] at hid; exact hid
  have hxr2 : x = r := List.inj_on_of_nodup_map hnd hx hr hxid
  subst hxr2
  subst hxr
  simp only [tick1, hdue, if_pos]

/-- Entries left active after a tick are exactly as the due test will see
them at a repeated tick in the same minute: a deactivated entry is never
due again. -/
theorem isDue_false_of_inactive (r : Reminder) (d t : String)
    (h : r.active = false) : isDue r d t = false := by
  simp [isDue, h]

/-- C1: an active reminder whose (date, time) equals the tick's current
minute strings is dispatched exactly once by the tick and deactivated; a
second tick in the same minute dispatches nothing for it, because active
is already false. -/
theorem checkReminders_dispatches_once (d t : String) (s : List Reminder)
    (r : Reminder) (hnd : (s.map Reminder.id).Nodup) (hr : r ∈ s)
    (hact : r.active = true) (hdate : r.date = d) (htime : r.time = t) :
    (checkReminders d t s).2.countP (fun x => x.id == r.id) = 1 ∧
    (∀ r' ∈ (checkReminders d t s).1, r'.id = r.id → r'.active = false) ∧
    (checkReminders d t (checkReminders d t s).1).2.countP
      (fun x => x.id == r.id) = 0 := by
  have hdue : isDue r d t = true := by
    simp [isDue, hact, hdate, htime]
  refine ⟨countP_disp_eq_one d t s r hnd hr hdue,
          tick_deactivates d t s r hnd hr hdue, ?_⟩
  apply countP_disp_eq_zero
  intro x hx hid
  exact isDue_false_of_inactive x d t
    (tick_deactivates d t s r hnd hr hdue x hx hid)

/-- The concrete reminder of the spec scenario: title "Call Bob",
date 2024-06-01, time 14:30, priority normal. -/
def callBob : Reminder :=
  ⟨1, "Call Bob", "", "2024-06-01", "14:30", "normal", true, none⟩

theorem checkReminders_dispatches_once_witness :
    ([callBob].map Reminder.id).Nodup ∧ callBob ∈ [callBob] ∧
    callBob.active = true ∧ callBob.date = "2024-06-01" ∧
    callBob.time = "14:30" ∧
    ((checkReminders "2024-06-01" "14:30" [callBob]).2.countP
        (fun x => x.id == callBob.id) = 1 ∧
      (∀ r' ∈ (checkReminders "2024-06-01" "14:30" [callBob]).1,
        r'.id = callBob.id → r'.active = false) ∧
      (checkReminders "2024-06-01" "14:30"
          (checkReminders "2024-06-01" "14:30" [callBob]).1).2.countP
        (fun x => x.id == callBob.id) = 0) :=
  ⟨by decide, List.mem_singleton.mpr rfl, rfl, rfl, rfl,
    checkReminders_dispatches_once "2024-06-01" "14:30" [callBob] callBob
      (by decide) (List.mem_singleton.mpr rfl) rfl rfl rfl⟩

/-- A run of the poll loop over a list of ticks, each tick given as the
(current_date, current_time) minute strings the loop computes from
datetime.now(); accumulates the reminder-list state and all dispatches. -/
def runTicks : List (String × String) → List Reminder × List Dispatch →
    List Reminder × List Dispatch
  | [], acc => acc
  | tk :: tks, acc =>
    runTicks tks ((checkReminders tk.1 tk.2 acc.1).1,
                  acc.2 ++ (checkReminders tk.1 tk.2 acc.1).2)

theorem isDue_false_of_ne (r : Reminder) (d t : String)
    (h : ¬(d = r.date ∧ t = r.time)) : isDue r d t = false := by
  by_cases hd : r.date = d
  · by_cases ht : r.time = t
    · exact absurd ⟨hd.symm, ht.symm⟩ h
    · simp [isDue, ht]
  · simp [isDue, hd]

theorem runTicks_never_fires_aux (ticks : List (String × String)) :
    ∀ (s : List Reminder) (ds : List Dispatch) (r : Reminder) (i : Nat),
    s[i]? = some r → (s.map Reminder.id).Nodup →
    (∀ tk ∈ ticks, ¬(tk.1 = r.date ∧ tk.2 = r.time)) →
    ds.countP (fun x => x.id == r.id) = 0 →
    (runTicks ticks (s, ds)).1[i]? = some r ∧
    (runTicks ticks (s, ds)).2.countP (fun x => x.id == r.id) = 0 := by
  induction ticks with
  | nil => intro s ds r i hi hnd _ hds; exact ⟨hi, hds⟩
  | cons tk tks ih =>
    intro s ds r i hi hnd hmiss hds
    have hrs : r ∈ s := List.getElem?_mem hi
    have hmiss1 : ¬(tk.1 = r.date ∧ tk.2 = r.time) :=
      hmiss tk (List.mem_cons_self tk tks)
    have hndue : isDue r tk.1 tk.2 = false := isDue_false_of_ne r tk.1 tk.2 hmiss1
    have hstep : (checkReminders tk.1 tk.2 s).1[i]? = some r := by
      rw [checkReminders_eq]
      simp only [List.getElem?_map, hi]
      simp [tick1, hndue]
    have hnd2 : ((checkReminders tk.1 tk.2 s).1.map Reminder.id).Nodup := by
      rw [ids_checkReminders]; exact hnd
    have htickzero : (checkReminders tk.1 tk.2 s).2.countP
        (fun x => x.id == r.id) = 0 := by
      apply countP_disp_eq_zero
      intro x hx hxid
      have hxr : x = r := List.inj_on_of_nodup_map hnd hx hrs hxid
      rw [hxr]
      exact hndue
    have hds2 : (ds ++ (checkReminders tk.1 tk.2 s).2).countP
        (fun x => x.id == r.id) = 0 := by
      rw [List.countP_append, hds, htickzero]
    exact ih (checkReminders tk.1 tk.2 s).1 (ds ++ (checkReminders tk.1 tk.2 s).2)
      r i hstep hnd2 (fun tk2 h2 => hmiss tk2 (List.mem_cons_of_mem tk h2)) hds2

/-- C3: a tick dispatches an active reminder only on an exact
(date, time) minute-string match; over any sequence of ticks none of
which lands on the reminder's scheduled minute the reminder is never
dispatched and its entry (active flag included) is unchanged. -/
theorem runTicks_never_fires (ticks : List (String × String))
    (s : List Reminder) (r : Reminder) (i : Nat)
    (hi : s[i]? = some r) (hnd : (s.map Reminder.id).Nodup)
    (hmiss : ∀ tk ∈ ticks, ¬(tk.1 = r.date ∧ tk.2 = r.time)) :
    (runTicks ticks (s, [])).1[i]? = some r ∧
    (runTicks ticks (s, [])).2.countP (fun x => x.id == r.id) = 0 :=
  runTicks_never_fires_aux ticks s [] r i hi hnd hmiss rfl

theorem runTicks_never_fires_witness :
    [callBob][0]? = some callBob ∧ ([callBob].map Reminder.id).Nodup ∧
    (∀ tk ∈ [("2024-06-01", "14:29"), ("2024-06-01", "14:31"),
             ("2024-06-02", "14:30")],
      ¬(tk.1 = callBob.date ∧ tk.2 = callBob.time)) ∧
    ((runTicks [("2024-06-01", "14:29"), ("2024-06-01", "14:31"),
                ("2024-06-02", "14:30")] ([callBob], [])).1[0]? = some callBob ∧
      (runTicks [("2024-06-01", "14:29"), ("2024-06-01", "14:31"),
                 ("2024-06-02", "14:30")] ([callBob], [])).2.countP
        (fun x => x.id == callBob.id) = 0) :=
  ⟨by decide, by decide, by decide,
    runTicks_never_fires
      [("2024-06-01", "14:29"), ("2024-06-01", "14:31"), ("2024-06-02", "14:30")]
      [callBob] callBob 0 (by decide) (by decide) (by decide)⟩

/-- delete_reminder (Reminder_App.py lines 1036-1051), after the id is
parsed out of the selected row: the list comprehension
[r for r in self.reminders if r['id'] != reminder_id]. -/
def delete_reminder (reminder_id : Nat) (s : List Reminder) : List Reminder :=
  s.filter (fun r => r.id != reminder_id)

/-- The claim "deleting removes exactly one entry when an entry with that
id is present" fails for an arbitrary store: the comprehension removes
every entry carrying the id, so a store holding two entries with id 5
loses both of them. -/
theorem delete_reminder_removes_two :
    (∃ r ∈ [(⟨5, "A", "", "2024-06-01", "09:00", "normal", true, none⟩ : Reminder),
            ⟨5, "B", "", "2024-06-02", "10:00", "normal", true, none⟩], r.id = 5) ∧
    (delete_reminder 5
        [⟨5, "A", "", "2024-06-01", "09:00", "normal", true, none⟩,
         ⟨5, "B", "", "2024-06-02", "10:00", "normal", true, none⟩]).length + 1 ≠
      [(⟨5, "A", "", "2024-06-01", "09:00", "normal", true, none⟩ : Reminder),
       ⟨5, "B", "", "2024-06-02", "10:00", "normal", true, none⟩].length := by
  constructor
  · exact ⟨_, List.mem_cons_self _ _, rfl⟩
  · decide

theorem delete_reminder_of_absent (i : Nat) (s : List Reminder)
    (h : ∀ r ∈ s, r.id ≠ i) : delete_reminder i s = s := by
  apply List.filter_eq_self.mpr
  intro a ha
  simpa using h a ha

/-- C4 (amended): on a store whose ids are pairwise distinct — the store
invariant add maintains — delete by id removes exactly one entry when the
id is present; when it is absent the store is unchanged (a no-op, not an
error); a second delete with the same id is always a no-op. -/
theorem delete_reminder_spec (i : Nat) (s : List Reminder)
    (hnd : (s.map Reminder.id).Nodup) :
    ((∃ r ∈ s, r.id = i) → (delete_reminder i s).length + 1 = s.length) ∧
    ((∀ r ∈ s, r.id ≠ i) → delete_reminder i s = s) ∧
    delete_reminder i (delete_reminder i s) = delete_reminder i s := by
  refine ⟨?_, delete_reminder_of_absent i s, ?_⟩
  · intro hex
    induction s with
    | nil =>
      obtain ⟨r, hr, _⟩ := hex
      exact absurd hr (List.not_mem_nil r)
    | cons a as ih =>
      have hna : a.id ∉ as.map Reminder.id := (List.nodup_cons.mp hnd).1
      have hnd2 : (as.map Reminder.id).Nodup := (List.nodup_cons.mp hnd).2
      by_cases ha : a.id = i
      · have hdrop : delete_reminder i (a :: as) = delete_reminder i as := by
          simp [delete_reminder, List.filter_cons, ha]
        have habsent : ∀ r ∈ as, r.id ≠ i := by
          intro r hr he
          exact hna (by rw [ha, ← he]; exact List.mem_map_of_mem Reminder.id hr)
        rw [hdrop, delete_reminder_of_absent i as habsent]
        simp
      · have hkeep : delete_reminder i (a :: as) = a :: delete_reminder i as := by
          simp [delete_reminder, List.filter_cons, ha]
        obtain ⟨r, hr, hri⟩ := hex
        rcases List.mem_cons.mp hr with hra | hras
        · exact absurd (hra ▸ hri) ha
        · have := ih hnd2 ⟨r, hras, hri⟩
          rw [hkeep]
          simp only [List.length_cons]
          omega
  · apply List.filter_eq_self.mpr
    intro a ha
    have ha2 : a ∈ s.filter (fun r => r.id != i) := ha
    exact (List.mem_filter.mp ha2).2

theorem delete_reminder_spec_witness :
    (([callBob].map Reminder.id).Nodup ∧
      (delete_reminder 1 [callBob]).length + 1 = [callBob].length) ∧
    delete_reminder 2 [callBob] = [callBob] ∧
    delete_reminder 1 (delete_reminder 1 [callBob]) =
      delete_reminder 1 [callBob] :=
  ⟨⟨by decide,
     (delete_reminder_spec 1 [callBob] (by decide)).1
       ⟨callBob, List.mem_singleton.mpr rfl, rfl⟩⟩,
   (delete_reminder_spec 2 [callBob] (by decide)).2.1 (by decide),
   (delete_reminder_spec 1 [callBob] (by decide)).2.2⟩

/-- C10: get_24hour_time renders "HH:MM" with the zero-padded adjusted
hour and the unchanged minute; 12 AM maps to 0, 12 PM to 12, any other
PM hour h to h+12 and any other AM hour to itself; the adjusted hour is
below 24 and, over hours 1..12 and the two meridiems, every hour 0..23
is hit by exactly one input — the conversion is a bijection onto the
24-hour minutes of a day. -/
theorem get_24hour_time_bijective :
    (∀ h m ampm, get_24hour_time h m ampm =
        pad2 (hour24 h ampm) ++ ":" ++ pad2 m) ∧
    hour24 12 "AM" = 0 ∧ hour24 12 "PM" = 12 ∧
    (∀ h, h ≠ 12 → hour24 h "AM" = h ∧ hour24 h "PM" = h + 12) ∧
    (∀ h ampm, 1 ≤ h → h ≤ 12 → hour24 h ampm < 24) ∧
    (∀ H, H < 24 → ∃! p : Nat × String,
        (1 ≤ p.1 ∧ p.1 ≤ 12 ∧ (p.2 = "AM" ∨ p.2 = "PM")) ∧
        hour24 p.1 p.2 = H) := by
  refine ⟨fun h m ampm => rfl, rfl, rfl, ?_, ?_, ?_⟩
  · intro h hne
    constructor
    · simp [hour24, hne]
    · simp [hour24, hne]
  · intro h ampm h1 h12
    simp only [hour24]
    by_cases hAM : ampm = "AM" ∧ h = 12
    · simp [hAM]
    · rw [if_neg hAM]
      by_cases hPM : ampm = "PM" ∧ h ≠ 12
      · rw [if_pos hPM]; omega
      · rw [if_neg hPM]; omega
  · intro H hH
    by_cases h0 : H = 0
    · refine ⟨(12, "AM"), ⟨⟨by omega, by omega, Or.inl rfl⟩, by simp [hour24, h0]⟩, ?_⟩
      rintro ⟨qh, qm⟩ ⟨⟨hq1, hq2, hqm⟩, hqe⟩
      rcases hqm with hA | hP
      · subst hA
        by_cases hq12 : qh = 12
        · simp [hq12, h0]
        · simp only [hour24] at hqe
          rw [if_neg (by simp [hq12]), if_neg (by simp)] at hqe
          omega
      · subst hP
        simp only [hour24] at hqe
        rw [if_neg (by simp)] at hqe
        by_cases hq12 : qh = 12
        · rw [if_neg (by simp [hq12])] at hqe; omega
        · rw [if_pos (by simp [hq12])] at hqe; omega
    · by_cases hlt : H < 12
      · refine ⟨(H, "AM"), ⟨⟨by omega, by omega, Or.inl rfl⟩, ?_⟩, ?_⟩
        · simp only [hour24]
          rw [if_neg (by simp; omega), if_neg (by simp)]
        · rintro ⟨qh, qm⟩ ⟨⟨hq1, hq2, hqm⟩, hqe⟩
          rcases hqm with hA | hP
          · subst hA
            by_cases hq12 : qh = 12
            · simp only [hour24] at hqe
              rw [if_pos (by simp [hq12])] at hqe
              omega
            · simp only [hour24] at hqe
              rw [if_neg (by simp [hq12]), if_neg (by simp)] at hqe
              simp [hqe]
          · subst hP
            simp only [hour24] at hqe
            rw [if_neg (by simp)] at hqe
            by_cases hq12 : qh = 12
            · rw [if_neg (by simp [hq12])] at hqe; omega
            · rw [if_pos (by simp [hq12])] at hqe; omega
      · by_cases h12 : H = 12
        · refine ⟨(12, "PM"), ⟨⟨by omega, by omega, Or.inr rfl⟩, by simp [hour24, h12]⟩, ?_⟩
          rintro ⟨qh, qm⟩ ⟨⟨hq1, hq2, hqm⟩, hqe⟩
          rcases hqm with hA | hP
          · subst hA
            by_cases hq12 : qh = 12
            · simp only [hour24] at hqe
              rw [if_pos (by simp [hq12])] at hqe
              omega
            · simp only [hour24] at hqe
              rw [if_neg (by simp [hq12]), if_neg (by simp)] at hqe
              omega
          · subst hP
            simp only [hour24] at hqe
            rw [if_neg (by simp)] at hqe
            by_cases hq12 : qh = 12
            · simp [hq12, h12]
            · rw [if_pos (by simp [hq12])] at hqe; omega
        · refine ⟨(H - 12, "PM"), ⟨⟨by omega, by omega, Or.inr rfl⟩, ?_⟩, ?_⟩
          · simp only [hour24]
            rw [if_neg (by simp)]
            rw [if_pos (show True ∧ H - 12 ≠ 12 from ⟨trivial, by omega⟩)]
            omega
          · rintro ⟨qh, qm⟩ ⟨⟨hq1, hq2, hqm⟩, hqe⟩
            rcases hqm with hA | hP
            · subst hA
              by_cases hq12 : qh = 12
              · simp only [hour24] at hqe
                rw [if_pos (by simp [hq12])] at hqe
                omega
              · simp only [hour24] at hqe
                rw [if_neg (by simp [hq12]), if_neg (by simp)] at hqe
                omega
            · subst hP
              simp only [hour24] at hqe
              rw [if_neg (by simp)] at hqe
              by_cases hq12 : qh = 12
              · rw [if_neg (by simp [hq12])] at hqe; omega
              · rw [if_pos (by simp [hq12])] at hqe
                simp only [Prod.mk.injEq]
                exact ⟨by omega, trivial⟩

theorem get_24hour_time_bijective_witness :
    get_24hour_time 2 30 "PM" = "14:30" ∧
    (7 ≠ 12 ∧ (hour24 7 "AM" = 7 ∧ hour24 7 "PM" = 19)) ∧
    (1 ≤ 12 ∧ 12 ≤ 12 ∧ hour24 12 "AM" < 24) ∧
    (0 < 24 ∧ ∃! p : Nat × String,
      (1 ≤ p.1 ∧ p.1 ≤ 12 ∧ (p.2 = "AM" ∨ p.2 = "PM")) ∧ hour24 p.1 p.2 = 0) :=
  ⟨by decide,
   ⟨by decide, get_24hour_time_bijective.2.2.2.1 7 (by decide)⟩,
   ⟨by decide, by decide,
    get_24hour_time_bijective.2.2.2.2.1 12 "AM" (by decide) (by decide)⟩,
   ⟨by decide, get_24hour_time_bijective.2.2.2.2.2 0 (by decide)⟩⟩

/-- A wall-clock datetime as Python's datetime exposes it to this code:
calendar fields plus seconds. -/
structure DateTime where
  year : Nat
  month : Nat
  day : Nat
  hour : Nat
  minute : Nat
  second : Nat
deriving DecidableEq, Repr

def isLeap (y : Nat) : Bool :=
  (y % 4 == 0 && y % 100 != 0) || y % 400 == 0

def daysInMonth (y m : Nat) : Nat :=
  if m = 2 then (if isLeap y then 29 else 28)
  else if m = 4 ∨ m = 6 ∨ m = 9 ∨ m = 11 then 30
  else 31

/-- Advance the calendar date by one day (Gregorian rollover). -/
def nextDay (dt : DateTime) : DateTime :=
  if dt.day < daysInMonth dt.year dt.month then { dt with day := dt.day + 1 }
  else if dt.month < 12 then { dt with month := dt.month + 1, day := 1 }
  else { dt with year := dt.year + 1, month := 1, day := 1 }

def addDays : Nat → DateTime → DateTime
  | 0, dt => dt
  | n + 1, dt => addDays n (nextDay dt)

/-- datetime + timedelta(minutes=m): minutes and hours carry into whole
days, the date rolls over through the calendar, seconds are untouched. -/
def addMinutes (dt : DateTime) (m : Nat) : DateTime :=
  let total := dt.hour * 60 + dt.minute + m
  let dt2 := addDays (total / 1440) dt
  { dt2 with hour := total % 1440 / 60, minute := total % 60 }

/-- strftime("%Y-%m-%d %H:%M"): minute granularity, seconds dropped. -/
def strftimeMinute (dt : DateTime) : String :=
  pad4 dt.year ++ "-" ++ pad2 dt.month ++ "-" ++ pad2 dt.day ++ " " ++
    pad2 dt.hour ++ ":" ++ pad2 dt.minute

/-- Truncation of a wall-clock instant to minute granularity. -/
def truncToMinute (dt : DateTime) : DateTime :=
  { dt with second := 0 }

/-- A snoozed item, mirroring the dict literal built in snooze_item. -/
structure SnoozedItem where
  id : Nat
  original_id : Nat
  title : String
  message : String
  trigger_time : String
  custom_voice : Option String
  active : Bool
deriving DecidableEq, Repr

/-- snooze_item (Reminder_App.py lines 676-691): trigger_time =
datetime.now() + timedelta(minutes=minutes), rendered with
strftime("%Y-%m-%d %H:%M"); the fresh id is int(time.time()*1000),
passed here as new_id. -/
def snooze_item (now : DateTime) (new_id item_id minutes : Nat)
    (title message : String) (custom_voice : Option String) : SnoozedItem :=
  { id := new_id, original_id := item_id, title := title, message := message,
    trigger_time := strftimeMinute (addMinutes now minutes),
    custom_voice := custom_voice, active := true }

theorem nextDay_second (dt : DateTime) :
    nextDay { dt with second := 0 } = { nextDay dt with second := 0 } := by
  simp only [nextDay]
  by_cases h1 : dt.day < daysInMonth dt.year dt.month
  · simp [h1]
  · by_cases h2 : dt.month < 12 <;> simp [h1, h2]

theorem addDays_second (n : Nat) : ∀ dt : DateTime,
    addDays n { dt with second := 0 } = { addDays n dt with second := 0 } := by
  induction n with
  | zero => intro dt; rfl
  | succ k ih =>
    intro dt
    simp only [addDays, nextDay_second, ih]

/-- C2: the snooze trigger equals the snooze instant truncated to minute
granularity plus the snooze minutes, formatted "YYYY-MM-DD HH:MM"
(seconds dropped before the comparison the poller will make); in the
spec's concrete scenario, Snooze(10) at 2024-06-01T14:30:12 yields
trigger_time "2024-06-01 14:40". -/
theorem snooze_item_trigger_time :
    (∀ (now : DateTime) (new_id item_id minutes : Nat)
        (title message : String) (voice : Option String),
      (snooze_item now new_id item_id minutes title message voice).trigger_time
        = strftimeMinute (addMinutes (truncToMinute now) minutes)) ∧
    (snooze_item ⟨2024, 6, 1, 14, 30, 12⟩ 99 7 10 "Call Bob" "" none).trigger_time
      = "2024-06-01 14:40" := by
  constructor
  · intro now new_id item_id minutes title message voice
    simp only [snooze_item, truncToMinute, addMinutes, strftimeMinute,
      addDays_second]
  · decide

/-- Python str.strip(): drop whitespace from both ends (ASCII whitespace,
which is all these claims exercise). -/
def pyStrip (s : String) : String :=
  String.mk (((s.data.dropWhile Char.isWhitespace).reverse.dropWhile
    Char.isWhitespace).reverse)

/-- add_reminder_gui (Reminder_App.py lines 983-1012): strips the title,
rejects an empty result (error dialog, no reminder created), otherwise
builds the reminder dict with id int(time.time()*1000) — passed here as
ts — active True, the 12h→24h converted time, and the pending voice note
if one was recorded. -/
def add_reminder_gui (ts : Nat) (title_input desc_input date : String)
    (hour minute : Nat) (ampm priority : String)
    (pending_voice_note : Option String) : Option Reminder :=
  let title := pyStrip title_input
  if title = "" then none
  else some { id := ts, title := title, description := pyStrip desc_input,
              date := date, time := get_24hour_time hour minute ampm,
              priority := priority, active := true,
              voice_note := pending_voice_note }

/-- The save handler of the edit dialog (Reminder_App.py lines 923-937):
overwrites title, description, date, time and priority in place with the
stripped form contents — with no emptiness check on the title — and
replaces the voice note only when a new one was recorded. -/
def edit_save (r : Reminder) (title_input desc_input date : String)
    (hour minute : Nat) (ampm priority : String)
    (new_voice : Option String) : Reminder :=
  { r with
    title := pyStrip title_input,
    description := pyStrip desc_input,
    date := date,
    time := get_24hour_time hour minute ampm,
    priority := priority,
    voice_note := (match new_voice with
      | some p => some p
      | none => r.voice_note) }

/-- C9 is a code bug: add does reject an empty or whitespace-only title,
but the edit dialog's save handler performs no such check, so editing a
stored reminder with a cleared title field stores the empty title the
data-model invariant forbids. -/
theorem edit_save_breaks_title_invariant :
    (∀ ts desc date h m ampm pr v,
      add_reminder_gui ts "   " desc date h m ampm pr v = none) ∧
    callBob.title ≠ "" ∧
    (edit_save callBob "" "" "2024-06-01" 2 30 "PM" "normal" none).title = "" := by
  refine ⟨fun ts desc date h m ampm pr v => ?_, by decide, by decide⟩
  have ht : pyStrip "   " = "" := by decide
  simp [add_reminder_gui, ht]

/-- The payload of an edit form, as read back by the edit dialog save. -/
structure EditFields where
  title_input : String
  desc_input : String
  date : String
  hour : Nat
  minute : Nat
  ampm : String
  priority : String
  new_voice : Option String
deriving DecidableEq, Repr

/-- The store operations of the spec's store interface as the source
implements them: add via add_reminder_gui (ts is the creation-time
millisecond clock reading), update via the edit dialog's save, delete via
delete_reminder, deactivate being the poller's reminder['active'] = False. -/
inductive StoreOp where
  | add (ts : Nat) (f : EditFields)
  | update (id : Nat) (f : EditFields)
  | delete (id : Nat)
  | deactivate (id : Nat)
deriving DecidableEq, Repr

def applyOp (s : List Reminder) : StoreOp → List Reminder
  | StoreOp.add ts f =>
    match add_reminder_gui ts f.title_input f.desc_input f.date f.hour
        f.minute f.ampm f.priority f.new_voice with
    | some r => s ++ [r]
    | none => s
  | StoreOp.update i f =>
    s.map (fun r => if r.id = i then
      edit_save r f.title_input f.desc_input f.date f.hour f.minute
        f.ampm f.priority f.new_voice else r)
  | StoreOp.delete i => delete_reminder i s
  | StoreOp.deactivate i =>
    s.map (fun r => if r.id = i then { r with active := false } else r)

/-- Freshness of the clock reading an add consumes: the code itself never
checks this; it holds iff the millisecond timestamp differs from every id
already stored. -/
def opFresh : StoreOp → List Reminder → Bool
  | StoreOp.add ts _, s => !(s.map Reminder.id).contains ts
  | _, _ => true

/-- Stepwise freshness of the clock readings along a sequence of store
operations. -/
def FreshOps : List Reminder → List StoreOp → Bool
  | _, [] => true
  | s, op :: ops => opFresh op s && FreshOps (applyOp s op) ops

/-- The claim that add always assigns an id distinct from every stored id
fails: the id is only the millisecond clock reading, never checked
against the store, so an add whose clock reading equals an existing id
(same millisecond, or a clock that went backwards) duplicates it. -/
theorem add_duplicates_id :
    ¬ ((applyOp [callBob]
        (StoreOp.add 1 ⟨"Buy milk", "", "2024-06-02", 9, 0, "AM", "normal",
          none⟩)).map Reminder.id).Nodup := by
  decide

theorem applyOp_nodup (s : List Reminder) (op : StoreOp)
    (hnd : (s.map Reminder.id).Nodup) (hf : opFresh op s = true) :
    ((applyOp s op).map Reminder.id).Nodup := by
  cases op with
  | add ts f =>
    simp only [applyOp]
    cases h : add_reminder_gui ts f.title_input f.desc_input f.date f.hour
        f.minute f.ampm f.priority f.new_voice with
    | none => exact hnd
    | some r =>
      have hts : ts ∉ s.map Reminder.id := by
        simp only [opFresh, Bool.not_eq_true'] at hf
        intro hmem
        rw [show (s.map Reminder.id).contains ts =
              List.elem ts (s.map Reminder.id) from rfl,
            List.elem_eq_true_of_mem hmem] at hf
        exact Bool.noConfusion hf
      have hid : r.id = ts := by
        simp only [add_reminder_gui] at h
        by_cases he : pyStrip f.title_input = ""
        · rw [if_pos he] at h
          exact absurd h Option.noConfusion
        · rw [if_neg he] at h
          rw [← Option.some.inj h]
      rw [List.map_append, List.nodup_append]
      refine ⟨hnd, List.nodup_singleton _, ?_⟩
      intro a ha hb
      simp only [List.map_cons, List.map_nil, List.mem_singleton] at hb
      rw [hb, hid] at ha
      exact hts ha
  | update i f =>
    simp only [applyOp, List.map_map]
    have heq : s.map (Reminder.id ∘ fun r => if r.id = i then
        edit_save r f.title_input f.desc_input f.date f.hour f.minute
          f.ampm f.priority f.new_voice else r) = s.map Reminder.id := by
      apply List.map_congr_left
      intro r _
      simp only [Function.comp]
      by_cases hri : r.id = i
      · rw [if_pos hri]; exact hri.symm ▸ rfl
      · rw [if_neg hri]
    rw [heq]
    exact hnd
  | delete i =>
    simp only [applyOp, delete_reminder]
    exact ((List.filter_sublist s).map Reminder.id).nodup hnd
  | deactivate i =>
    simp only [applyOp, List.map_map]
    have heq : s.map (Reminder.id ∘ fun r => if r.id = i then
        { r with active := false } else r) = s.map Reminder.id := by
      apply List.map_congr_left
      intro r _
      simp only [Function.comp]
      by_cases hri : r.id = i
      · rw [if_pos hri]
      · rw [if_neg hri]
    rw [heq]
    exact hnd

/-- C7 (amended): the id a new reminder receives is the creation-time
millisecond clock reading, with no freshness check in the code; provided
every add in a sequence of add/update/delete/deactivate operations
happens at a clock reading distinct from all ids then in the store (the
single-interactive-user assumption the spec makes), id-uniqueness is an
invariant of the whole sequence. -/
theorem ids_nodup_invariant (ops : List StoreOp) : ∀ s : List Reminder,
    (s.map Reminder.id).Nodup → FreshOps s ops = true →
    (((ops.foldl applyOp s).map Reminder.id)).Nodup := by
  induction ops with
  | nil => intro s hnd _; exact hnd
  | cons op ops ih =>
    intro s hnd hf
    simp only [FreshOps, Bool.and_eq_true] at hf
    simp only [List.foldl_cons]
    exact ih (applyOp s op) (applyOp_nodup s op hnd hf.1) hf.2

theorem ids_nodup_invariant_witness :
    (([] : List Reminder).map Reminder.id).Nodup ∧
    FreshOps []
      [StoreOp.add 100 ⟨"Call Bob", "", "2024-06-01", 2, 30, "PM", "normal", none⟩,
       StoreOp.add 200 ⟨"Buy milk", "", "2024-06-02", 9, 0, "AM", "normal", none⟩,
       StoreOp.deactivate 100,
       StoreOp.delete 200] = true ∧
    ((([StoreOp.add 100 ⟨"Call Bob", "", "2024-06-01", 2, 30, "PM", "normal", none⟩,
        StoreOp.add 200 ⟨"Buy milk", "", "2024-06-02", 9, 0, "AM", "normal", none⟩,
        StoreOp.deactivate 100,
        StoreOp.delete 200].foldl applyOp []).map Reminder.id)).Nodup :=
  ⟨by decide, by decide,
   ids_nodup_invariant
     [StoreOp.add 100 ⟨"Call Bob", "", "2024-06-01", 2, 30, "PM", "normal", none⟩,
      StoreOp.add 200 ⟨"Buy milk", "", "2024-06-02", 9, 0, "AM", "normal", none⟩,
      StoreOp.deactivate 100,
      StoreOp.delete 200] [] (by decide) (by decide)⟩

/-- The JSON values json.dump writes and json.load returns for this
program's documents: objects, arrays, strings, numbers (only integer ids
occur here), booleans and null. json.dump followed by json.load is the
identity on these values, so persistence is modelled at the value level;
the repo's own save_data/load_data code is the document wrapping below. -/
inductive Json where
  | null : Json
  | bool (b : Bool) : Json
  | num (n : Nat) : Json
  | str (s : String) : Json
  | arr (xs : List Json) : Json
  | obj (kvs : List (String × Json)) : Json

/-- Python dict.get(key, default) on a parsed JSON object. -/
def lookupKV (k : String) : List (String × Json) → Option Json
  | [] => none
  | (k2, v) :: rest => if k2 = k then some v else lookupKV k rest

def asNat : Json → Option Nat
  | Json.num n => some n
  | _ => none

def asStr : Json → Option String
  | Json.str s => some s
  | _ => none

def asBool : Json → Option Bool
  | Json.bool b => some b
  | _ => none

/-- The JSON object a reminder dict serializes to: the keys
add_reminder_gui writes, the voice_note key present only when a voice
note was attached. -/
def encodeReminder (r : Reminder) : Json :=
  Json.obj ([("id", Json.num r.id), ("title", Json.str r.title),
    ("description", Json.str r.description), ("date", Json.str r.date),
    ("time", Json.str r.time), ("priority", Json.str r.priority),
    ("active", Json.bool r.active)] ++
    (match r.voice_note with
     | some p => [("voice_note", Json.str p)]
     | none => []))

/-- Reading a reminder's fields back out of a loaded JSON object, the way
the rest of the program does (r['id'], r['title'], ..., r.get('voice_note')). -/
def decodeReminder : Json → Option Reminder
  | Json.obj kvs =>
    (lookupKV "id" kvs >>= asNat).bind (fun i =>
    (lookupKV "title" kvs >>= asStr).bind (fun ti =>
    (lookupKV "description" kvs >>= asStr).bind (fun de =>
    (lookupKV "date" kvs >>= asStr).bind (fun da =>
    (lookupKV "time" kvs >>= asStr).bind (fun tm =>
    (lookupKV "priority" kvs >>= asStr).bind (fun pr =>
    (lookupKV "active" kvs >>= asBool).bind (fun ac =>
      some ⟨i, ti, de, da, tm, pr, ac, lookupKV "voice_note" kvs >>= asStr⟩)))))))
  | _ => none

/-- save_data (Reminder_App.py lines 1086-1089): the document written is
json.dump({'reminders': self.reminders, 'alarms': self.alarms}). -/
def save_data (reminders : List Reminder) (alarms : List Json) : Json :=
  Json.obj [("reminders", Json.arr (reminders.map encodeReminder)),
            ("alarms", Json.arr alarms)]

/-- What load_data finds at DATA_FILE: no file, a file json.load raises
on, or a parsed JSON value. -/
inductive LoadSrc where
  | missing : LoadSrc
  | malformed : LoadSrc
  | parsed (j : Json) : LoadSrc

def isObj : Json → Bool
  | Json.obj _ => true
  | _ => false

/-- load_data (Reminder_App.py lines 1075-1084) at startup, where
__init__ has set self.reminders = [] and self.alarms = []: a missing file
is skipped, a json.load failure is caught by the bare except (as is the
AttributeError when the parsed value is not a dict), leaving both lists
empty; otherwise reminders/alarms are data.get('reminders', []) and
data.get('alarms', []). Returns the (reminders, alarms) pair. -/
def load_data : LoadSrc → Json × Json
  | LoadSrc.missing => (Json.arr [], Json.arr [])
  | LoadSrc.malformed => (Json.arr [], Json.arr [])
  | LoadSrc.parsed (Json.obj kvs) =>
    ((lookupKV "reminders" kvs).getD (Json.arr []),
     (lookupKV "alarms" kvs).getD (Json.arr []))
  | LoadSrc.parsed _ => (Json.arr [], Json.arr [])

theorem decode_encode (r : Reminder) :
    decodeReminder (encodeReminder r) = some r := by
  cases r with
  | mk i ti de da tm pr ac v =>
    cases v with
    | none => rfl
    | some p => rfl

/-- C5: serializing any store contents to the persisted document and
loading that document yields the same reminders list by value — the
loaded array is exactly the serialized reminders, and reading each
entry's fields back gives the original reminders unchanged (and the
alarms list likewise). Every store reachable by add/update/delete is an
instance of the quantified lists. -/
theorem save_load_roundtrip :
    (∀ (rs : List Reminder) (al : List Json),
      load_data (LoadSrc.parsed (save_data rs al)) =
        (Json.arr (rs.map encodeReminder), Json.arr al)) ∧
    (∀ rs : List Reminder,
      (rs.map encodeReminder).mapM decodeReminder = some rs) := by
  constructor
  · intro rs al
    rfl
  · intro rs
    induction rs with
    | nil => rfl
    | cons r rest ih =>
      simp only [List.map_cons, List.mapM_cons, decode_encode, ih]
      rfl

/-- C6: a missing persisted file, content json.load rejects, or parsed
content that is not the expected object all yield the empty store (empty
reminders and alarms lists); load_data is total — every failure path ends
in the bare except, none terminates the program. -/
theorem load_data_failure_empty :
    load_data LoadSrc.missing = (Json.arr [], Json.arr []) ∧
    load_data LoadSrc.malformed = (Json.arr [], Json.arr []) ∧
    (∀ j : Json, isObj j = false →
      load_data (LoadSrc.parsed j) = (Json.arr [], Json.arr [])) := by
  refine ⟨rfl, rfl, ?_⟩
  intro j hj
  cases j with
  | obj kvs => exact absurd hj (by simp [isObj])
  | null => rfl
  | bool b => rfl
  | num n => rfl
  | str s => rfl
  | arr xs => rfl

theorem load_data_failure_empty_witness :
    isObj (Json.str "garbage") = false ∧
    load_data (LoadSrc.parsed (Json.str "garbage")) =
      (Json.arr [], Json.arr []) :=
  ⟨rfl, load_data_failure_empty.2.2 (Json.str "garbage") rfl⟩

/-- check_reminders with a fallible dispatcher: fails says on which
reminder ids show_fullscreen_alert raises. A raise happens before the
reminder is deactivated, so the failing entry keeps active=True and every
later entry of the list is left unprocessed (the for loop dies with the
exception); entries already processed keep their updates and dispatches.
Except.error carries the tick's partial result as monitor_loop's bare
except sees it. -/
def checkRemindersF (fails : Nat → Bool) (d t : String) :
    List Reminder → Except (List Reminder × List Dispatch)
      (List Reminder × List Dispatch)
  | [] => Except.ok ([], [])
  | r :: rs =>
    if isDue r d t then
      if fails r.id then Except.error (r :: rs, [])
      else
        match checkRemindersF fails d t rs with
        | Except.ok (rs2, ds) =>
          Except.ok ({ r with active := false } :: rs2, mkDispatch r :: ds)
        | Except.error (rs2, ds) =>
          Except.error ({ r with active := false } :: rs2, mkDispatch r :: ds)
    else
      match checkRemindersF fails d t rs with
      | Except.ok (rs2, ds) => Except.ok (r :: rs2, ds)
      | Except.error (rs2, ds) => Except.error (r :: rs2, ds)

/-- One iteration of monitor_loop (Reminder_App.py lines 1091-1099) as it
touches the reminders: the bare try/except swallows whatever
check_reminders raised, keeping the state the tick reached, and the loop
sleeps and goes on (a raise also skips that tick's check_snoozed call). -/
def monitorTick (fails : Nat → Bool) (d t : String) (s : List Reminder) :
    List Reminder × List Dispatch :=
  match checkRemindersF fails d t s with
  | Except.ok v => v
  | Except.error v => v

/-- The claim that a failing item never halts delivery of the other due
items of the tick is false: two reminders both due at 14:30, the
dispatcher raising only on the first (id 1) — the tick dispatches
nothing at all, and both entries are still active afterwards, because the
exception aborts the for loop before the second reminder is reached and
monitor_loop only catches it outside check_reminders. -/
theorem tick_failure_not_isolated_per_item :
    isDue ⟨2, "B", "", "2024-06-01", "14:30", "normal", true, none⟩
      "2024-06-01" "14:30" = true ∧
    (fun i => i == 1) (2 : Nat) = false ∧
    (monitorTick (fun i => i == 1) "2024-06-01" "14:30"
      [⟨1, "A", "", "2024-06-01", "14:30", "normal", true, none⟩,
       ⟨2, "B", "", "2024-06-01", "14:30", "normal", true, none⟩]).2 = [] ∧
    (monitorTick (fun i => i == 1) "2024-06-01" "14:30"
      [⟨1, "A", "", "2024-06-01", "14:30", "normal", true, none⟩,
       ⟨2, "B", "", "2024-06-01", "14:30", "normal", true, none⟩]).1 =
      [⟨1, "A", "", "2024-06-01", "14:30", "normal", true, none⟩,
       ⟨2, "B", "", "2024-06-01", "14:30", "normal", true, none⟩] := by
  refine ⟨by decide, by decide, by decide, by decide⟩

theorem checkRemindersF_abort (fails : Nat → Bool) (d t : String)
    (r : Reminder) (b : List Reminder) (hr : isDue r d t = true)
    (hf : fails r.id = true) : ∀ a : List Reminder,
    (∀ x ∈ a, isDue x d t = true → fails x.id = false) →
    checkRemindersF fails d t (a ++ r :: b) =
      Except.error ((checkReminders d t a).1 ++ r :: b,
        (checkReminders d t a).2) := by
  intro a
  induction a with
  | nil =>
    intro _
    simp only [List.nil_append, checkRemindersF, hr, hf, if_pos]
    rfl
  | cons x xs ih =>
    intro ha
    have hx := ha x (List.mem_cons_self x xs)
    have hrec := ih (fun y hy => ha y (List.mem_cons_of_mem x hy))
    simp only [List.cons_append, checkRemindersF, List.append_eq]
    by_cases hxd : isDue x d t = true
    · rw [if_pos hxd, if_neg (by rw [hx hxd]; exact Bool.false_ne_true), hrec]
      simp only [checkReminders, hxd, if_pos]
      rfl
    · rw [if_neg hxd, hrec]
      simp only [checkReminders, hxd]
      rfl

theorem checkRemindersF_ok (fails : Nat → Bool) (d t : String) :
    ∀ s : List Reminder,
    (∀ x ∈ s, isDue x d t = true → fails x.id = false) →
    checkRemindersF fails d t s = Except.ok (checkReminders d t s) := by
  intro s
  induction s with
  | nil => intro _; rfl
  | cons x xs ih =>
    intro hs
    have hx := hs x (List.mem_cons_self x xs)
    have hrec := ih (fun y hy => hs y (List.mem_cons_of_mem x hy))
    simp only [checkRemindersF, checkReminders]
    by_cases hxd : isDue x d t = true
    · rw [if_pos hxd, if_neg (by rw [hx hxd]; exact Bool.false_ne_true), hrec]
      simp [hxd]
    · rw [if_neg hxd, hrec]
      simp [hxd]

/-- C8 (amended): failures in a tick are isolated per tick, not per item.
If the dispatcher raises on a due item, the items before it in the list
keep their dispatches and deactivations, while the failing item and every
item after it are left untouched for that tick (not dispatched, active
unchanged) — but the exception is swallowed by monitor_loop's bare
except, the tick still returns a state, and a tick whose due items all
dispatch cleanly behaves exactly like the fault-free tick, so an aborted
tick never stops later ticks from delivering. -/
theorem monitorTick_per_tick_isolation (fails : Nat → Bool) (d t : String) :
    (∀ (a b : List Reminder) (r : Reminder),
      (∀ x ∈ a, isDue x d t = true → fails x.id = false) →
      isDue r d t = true → fails r.id = true →
      monitorTick fails d t (a ++ r :: b) =
        ((checkReminders d t a).1 ++ r :: b, (checkReminders d t a).2)) ∧
    (∀ s : List Reminder,
      (∀ x ∈ s, isDue x d t = true → fails x.id = false) →
      monitorTick fails d t s = checkReminders d t s) := by
  constructor
  · intro a b r ha hr hf
    simp only [monitorTick, checkRemindersF_abort fails d t r b hr hf a ha]
  · intro s hs
    simp only [monitorTick, checkRemindersF_ok fails d t s hs]

theorem monitorTick_per_tick_isolation_witness :
    ((∀ x ∈ [callBob], isDue x "2024-06-01" "14:30" = true →
        (fun i => i == 5) x.id = false) ∧
      isDue ⟨5, "C", "", "2024-06-01", "14:30", "normal", true, none⟩
        "2024-06-01" "14:30" = true ∧
      (fun i => i == 5) (5 : Nat) = true ∧
      monitorTick (fun i => i == 5) "2024-06-01" "14:30"
        ([callBob] ++ ⟨5, "C", "", "2024-06-01", "14:30", "normal", true,
          none⟩ :: []) =
        ((checkReminders "2024-06-01" "14:30" [callBob]).1 ++
          ⟨5, "C", "", "2024-06-01", "14:30", "normal", true, none⟩ :: [],
         (checkReminders "2024-06-01" "14:30" [callBob]).2)) ∧
    monitorTick (fun i => i == 5) "2024-06-01" "14:31" [callBob] =
      checkReminders "2024-06-01" "14:31" [callBob] :=
  ⟨⟨by decide, by decide, by decide,
    (monitorTick_per_tick_isolation (fun i => i == 5) "2024-06-01" "14:30").1
      [callBob] [] ⟨5, "C", "", "2024-06-01", "14:30", "normal", true, none⟩
      (by decide) (by decide) (by decide)⟩,
   (monitorTick_per_tick_isolation (fun i => i == 5) "2024-06-01" "14:31").2
     [callBob] (by decide)⟩
